import Mathlib

/-!
Verification development for the clevis-pin-trustee repository: a shallow
embedding of the configuration model (src/lib/src/lib.rs) and of the key
resolution engine and envelope pipeline (src/cli/src/main.rs), together with
theorems settling the specification's claims about them.

Conventions of the embedding:
* Rust `Result<T>` (anyhow) becomes `Except String T`; error values carry the
  exact message string the code builds.
* The executor trait `CommandExecutor` (`try_fetch_luks_key(url, path, cert,
  initdata)`) becomes a function `String → String → String → Option String →
  Option String`; `none` is a failed invocation.
* Side effects (which server was invoked, sleeps, attempts) are made explicit
  in a `RunLog` threaded through the engine, so that "the executor is never
  called" or "no inter-attempt delay" are statements about the log.
* The unbounded `Infinity` retry loop is given an explicit attempt budget
  (`fuel`); a `none` outcome means the loop is still running after that many
  attempts, having produced neither a key nor an error.
-/

namespace Trustee

/-- `DELAY`, in seconds, from `const DELAY: Duration = Duration::from_secs(5)`. -/
def DELAY : Nat := 5

/-- `const DEFAULT_TRIES: u32 = 10`. -/
def DEFAULT_TRIES : Nat := 10

/-- `enum NumRetries` from src/lib/src/lib.rs: `Finite(u32)` or `Infinity`. -/
inductive NumRetries where
  | Finite : Nat → NumRetries
  | Infinity : NumRetries
deriving DecidableEq

/-- `struct Server` from src/lib/src/lib.rs: both fields are plain `String`s
(no serde default on either). -/
structure Server where
  url : String
  cert : String
deriving DecidableEq

/-- `struct Config` from src/lib/src/lib.rs. `initdata` is the raw JSON string
supplied by the caller; `num_retries` is optional. -/
structure Config where
  servers : List Server
  path : String
  initdata : Option String
  num_retries : Option NumRetries
deriving DecidableEq

/-- `struct Key` from src/lib/src/lib.rs (the decoded key material). -/
structure Key where
  key_type : String
  key : String
deriving DecidableEq

/-- `struct ClevisHeader` from src/cli/src/main.rs: the metadata block embedded
in the produced envelope. -/
structure ClevisHeader where
  pin : String
  servers : List Server
  path : String
  initdata : Option String
  num_retries : Option NumRetries
deriving DecidableEq

/-- The JWK built by `fetch_and_prepare_jwk`: `Jwk::new(&key.key_type)`,
`set_key_value(&key.key)`, `set_key_operations(["encrypt","decrypt"])`. -/
structure Jwk where
  kty : String
  keyValue : String
  keyOps : List String
deriving DecidableEq

/-- Building the JWK from decoded key material (src/cli/src/main.rs lines 138-140). -/
def mkJwk (key : Key) : Jwk :=
  ⟨key.key_type, key.key, ["encrypt", "decrypt"]⟩

/-- A JSON value as seen by a serde deserializer, restricted to the shapes the
deserializers in this repository distinguish: an integer (routed to
`visit_u64`/`visit_i64`), a string (routed to `visit_str`), or anything else
(float, bool, null, array, object — all rejected by the visitors modelled
here). -/
inductive JVal where
  | str : String → JVal
  | int : Int → JVal
  | other : JVal
deriving DecidableEq

/-- `NumRetries::deserialize` from src/lib/src/lib.rs lines 27-84: `visit_u64`
rejects 0 and values above `u32::MAX`; `visit_i64` rejects non-positive values
and values above `u32::MAX`; `visit_str` accepts exactly `"infinity"`; every
other JSON shape has no visitor method and is rejected. -/
def numRetriesDeserialize : JVal → Except String NumRetries
  | .int v =>
    if v ≤ 0 then .error ("number must be at least 1, got: " ++ toString v)
    else if 4294967295 < v then .error ("number too large: " ++ toString v)
    else .ok (.Finite v.toNat)
  | .str s =>
    if s = "infinity" then .ok .Infinity
    else .error ("expected 'infinity', got: '" ++ s ++ "'")
  | .other => .error "invalid type"

/-- `num_retries.as_ref().unwrap_or(&NumRetries::Finite(DEFAULT_TRIES))`
(src/cli/src/main.rs lines 169-172 and 227-230). -/
def effectiveRetries (r : Option NumRetries) : NumRetries :=
  r.getD (.Finite DEFAULT_TRIES)

/-- Field lookup in a deserialized JSON object (first occurrence). -/
def lookupField (fields : List (String × JVal)) (name : String) : Option JVal :=
  (fields.find? (fun p => p.1 == name)).map (fun p => p.2)

/-- The serde-derived deserializer for `Server` (src/lib/src/lib.rs lines
86-90), at the level of an already-tokenized JSON object: both `url` and
`cert` are required string fields (neither carries a serde default), unknown
fields are ignored. Duplicate fields are not modelled (first occurrence wins). -/
def Server.deserializeFields (fields : List (String × JVal)) : Except String Server :=
  match lookupField fields "url" with
  | some (.str u) =>
    match lookupField fields "cert" with
    | some (.str c) => .ok ⟨u, c⟩
    | some _ => .error "invalid type for field `cert`"
    | none => .error "missing field `cert`"
  | some _ => .error "invalid type for field `url`"
  | none => .error "missing field `url`"

/-- URL sanitization for the per-URL certificate file
(src/cli/src/main.rs line 47). -/
def sanitizeUrl (url : String) : String :=
  ((url.replace "://" "_").replace "/" "_").replace ":" "_"

/-- The per-URL certificate path (src/cli/src/main.rs line 48). -/
def certPath (url : String) : String :=
  "/var/run/trustee/cert_" ++ sanitizeUrl url ++ ".pem"

/-- The argument list `RealCommandExecutor` hands to the `trustee-attester`
subprocess (src/cli/src/main.rs lines 44-64): `--cert-file` is passed exactly
when `cert` is non-empty; `--initdata` exactly when init-data is present. -/
def buildCommandArgs (url path cert : String) (initdata : Option String) : List String :=
  (if cert.isEmpty then [] else ["--cert-file", certPath url]) ++
    ["--url", url, "get-resource", "--path", path] ++
    (match initdata with
     | some s => ["--initdata", s]
     | none => [])

/-- Value of one standard-base64-alphabet character. -/
def b64Val (c : Char) : Option Nat :=
  if 'A' ≤ c ∧ c ≤ 'Z' then some (c.toNat - 65)
  else if 'a' ≤ c ∧ c ≤ 'z' then some (c.toNat - 71)
  else if '0' ≤ c ∧ c ≤ '9' then some (c.toNat + 4)
  else if c = '+' then some 62
  else if c = '/' then some 63
  else none

/-- Modelled from the spec: the "standard base64 decode" step
(`general_purpose::STANDARD.decode`, an external crate). Quartet-wise strict
decoding: canonical padding is required and non-zero trailing bits are
rejected, as in the crate's default configuration. -/
def base64DecodeAux : List Char → Option (List Nat)
  | [] => some []
  | c1 :: c2 :: c3 :: c4 :: rest =>
    match b64Val c1, b64Val c2 with
    | some v1, some v2 =>
      if c3 = '=' then
        if c4 = '=' ∧ rest = [] then
          if v2 % 16 = 0 then some [v1 * 4 + v2 / 16] else none
        else none
      else
        match b64Val c3 with
        | some v3 =>
          if c4 = '=' then
            if rest = [] then
              if v3 % 4 = 0 then some [v1 * 4 + v2 / 16, (v2 % 16) * 16 + v3 / 4]
              else none
            else none
          else
            match b64Val c4 with
            | some v4 =>
              (base64DecodeAux rest).map
                (fun bs => (v1 * 4 + v2 / 16) :: ((v2 % 16) * 16 + v3 / 4) :: ((v3 % 4) * 64 + v4) :: bs)
            | none => none
        | none => none
    | _, _ => none
  | _ => none

/-- Base64 decode of a whole string (input length must be a multiple of 4). -/
def base64Decode (s : String) : Option (List Nat) :=
  base64DecodeAux s.data

/-- Modelled from the spec: the UTF-8 decode step (`String::from_utf8`).
Standard UTF-8 with rejection of continuation errors, overlong encodings,
surrogates and code points beyond U+10FFFF. -/
def utf8DecodeAux : List Nat → Option (List Char)
  | [] => some []
  | b :: rest =>
    if b < 128 then
      (utf8DecodeAux rest).map (fun cs => Char.ofNat b :: cs)
    else if b < 192 then none
    else if b < 224 then
      match rest with
      | b2 :: rest2 =>
        if 128 ≤ b2 ∧ b2 < 192 then
          let cp := (b - 192) * 64 + (b2 - 128)
          if cp < 128 then none
          else (utf8DecodeAux rest2).map (fun cs => Char.ofNat cp :: cs)
        else none
      | [] => none
    else if b < 240 then
      match rest with
      | b2 :: b3 :: rest3 =>
        if (128 ≤ b2 ∧ b2 < 192) ∧ (128 ≤ b3 ∧ b3 < 192) then
          let cp := (b - 224) * 4096 + (b2 - 128) * 64 + (b3 - 128)
          if cp < 2048 then none
          else if 55296 ≤ cp ∧ cp < 57344 then none
          else (utf8DecodeAux rest3).map (fun cs => Char.ofNat cp :: cs)
        else none
      | _ => none
    else if b < 248 then
      match rest with
      | b2 :: b3 :: b4 :: rest4 =>
        if (128 ≤ b2 ∧ b2 < 192) ∧ (128 ≤ b3 ∧ b3 < 192) ∧ (128 ≤ b4 ∧ b4 < 192) then
          let cp := (b - 240) * 262144 + (b2 - 128) * 4096 + (b3 - 128) * 64 + (b4 - 128)
          if cp < 65536 then none
          else if 1114111 < cp then none
          else (utf8DecodeAux rest4).map (fun cs => Char.ofNat cp :: cs)
        else none
      | _ => none
    else none

/-- UTF-8 decode of a byte list into a string. -/
def utf8Decode (bs : List Nat) : Option String :=
  (utf8DecodeAux bs).map String.mk

/-- Whitespace skipping for the JSON reader below. -/
def skipWs : List Char → List Char
  | [] => []
  | c :: rest =>
    if c = ' ' ∨ c = '\n' ∨ c = '\t' ∨ c = '\r' then skipWs rest else c :: rest

/-- Reads a JSON string literal body after its opening quote; escape sequences
are not modelled (a backslash is rejected). Returns the characters and the
remaining input. -/
def readStringLit : List Char → Option (List Char × List Char)
  | [] => none
  | c :: rest =>
    if c = '"' then some ([], rest)
    else if c = '\\' then none
    else
      match readStringLit rest with
      | some (s, r) => some (c :: s, r)
      | none => none

/-- Reads the `"name": "value"` fields of a flat JSON object, after the opening
brace; stops at the closing brace. Fuelled recursion (fuel bounds the number of
fields). -/
def readFieldsAux : Nat → List Char → Option (List (String × String) × List Char)
  | 0, _ => none
  | fuel + 1, cs =>
    match skipWs cs with
    | '"' :: rest =>
      match readStringLit rest with
      | some (name, r1) =>
        match skipWs r1 with
        | ':' :: r2 =>
          match skipWs r2 with
          | '"' :: r3 =>
            match readStringLit r3 with
            | some (val, r4) =>
              match skipWs r4 with
              | ',' :: r5 =>
                match readFieldsAux fuel r5 with
                | some (fields, r6) => some ((String.mk name, String.mk val) :: fields, r6)
                | none => none
              | c :: r5 =>
                if c = Char.ofNat 125 then some ([(String.mk name, String.mk val)], r5)
                else none
              | [] => none
            | none => none
          | _ => none
        | _ => none
      | none => none
    | _ => none

/-- First value bound to `name` in a parsed field list. -/
def findField (fields : List (String × String)) (name : String) : Option String :=
  (fields.find? (fun p => p.1 == name)).map (fun p => p.2)

/-- Modelled from the spec: the "JSON parse into key_type and key_value" step
(`serde_json::from_str::<Key>`), as a reader of flat JSON objects with string
values. Both `key_type` and `key` must be present; unknown fields are ignored. -/
def parseKeyJson (s : String) : Option Key :=
  match skipWs s.data with
  | c :: rest =>
    if c = Char.ofNat 123 then
      match readFieldsAux (rest.length + 1) rest with
      | some (fields, r) =>
        if skipWs r = [] then
          match findField fields "key_type", findField fields "key" with
          | some t, some k => some ⟨t, k⟩
          | _, _ => none
        else none
      | none => none
    else none
  | [] => none

/-- Error message of the base64 step (src/cli/src/main.rs line 132). -/
def b64ErrMsg : String := "Error decoding key in base64"

/-- Error message of the UTF-8 step (src/cli/src/main.rs line 134; the code
labels this context "in JSON"). -/
def utf8ErrMsg : String := "Error decoding the key in JSON"

/-- Error message of the JSON parse step (src/cli/src/main.rs line 136). -/
def keyParseErrMsg : String := "Error in parsing the fetched key"

/-- The key material decoder inside `fetch_and_prepare_jwk`
(src/cli/src/main.rs lines 129-136): base64 decode, then UTF-8 decode, then
JSON parse, each failure carrying its own context message. -/
def decodeKeyMaterial (key : String) : Except String Key :=
  match base64Decode key with
  | none => .error b64ErrMsg
  | some bytes =>
    match utf8Decode bytes with
    | none => .error utf8ErrMsg
    | some txt =>
      match parseKeyJson txt with
      | none => .error keyParseErrMsg
      | some kmat => .ok kmat

/-- The observable side effects of one engine run: the servers handed to the
executor in invocation order, the total seconds slept between attempts, and
the number of attempts begun. -/
structure RunLog where
  calls : List Server
  delaySecs : Nat
  attempts : Nat
deriving DecidableEq

/-- The `CommandExecutor` trait contract (src/cli/src/main.rs lines 23-31):
`try_fetch_luks_key(url, path, cert, initdata)` returns a key or fails. -/
def CommandExecutor : Type :=
  String → String → String → Option String → Option String

/-- `try_fetch_from_servers` (src/cli/src/main.rs lines 252-271): walk the
server list in order, invoking the executor on each server's url and cert;
return the first successful key immediately. Also returns the servers tried. -/
def tryFetchFromServers (servers : List Server) (path : String)
    (initdata : Option String) (exec : CommandExecutor) : Option String × List Server :=
  match servers with
  | [] => (none, [])
  | s :: rest =>
    match exec s.url path s.cert initdata with
    | some key => (some key, [s])
    | none =>
      let r := tryFetchFromServers rest path initdata exec
      (r.1, s :: r.2)

/-- The error built at src/cli/src/main.rs lines 306-309 when a finite retry
budget is exhausted. -/
def allServersFailedMsg (n : Nat) : String :=
  "Failed to fetch the LUKS key from all URLs after " ++ toString n ++ " attempts"

/-- The error built at src/cli/src/main.rs line 281 for an empty server list. -/
def noServersMsg : String := "No URLs provided"

/-- The `NumRetries::Finite` arm of `fetch_luks_key` (src/cli/src/main.rs lines
285-310): `(1..=max_attempts).find_map(..)`, recursing on the attempts left.
A failed attempt sleeps `DELAY` unless it was the final attempt. -/
def fetchFiniteAux (servers : List Server) (path : String) (initdata : Option String)
    (exec : CommandExecutor) (maxAttempts : Nat) : Nat → Except String String × RunLog
  | 0 => (.error (allServersFailedMsg maxAttempts), ⟨[], 0, 0⟩)
  | left + 1 =>
    match tryFetchFromServers servers path initdata exec with
    | (some key, tried) => (.ok key, ⟨tried, 0, 1⟩)
    | (none, tried) =>
      let rest := fetchFiniteAux servers path initdata exec maxAttempts left
      (rest.1, ⟨tried ++ rest.2.calls, (if left = 0 then 0 else DELAY) + rest.2.delaySecs,
        1 + rest.2.attempts⟩)

/-- The `NumRetries::Infinity` arm of `fetch_luks_key` (src/cli/src/main.rs
lines 311-327): an unbounded loop that sleeps `DELAY` after every failed
attempt. `fuel` is the number of attempts observed; a `none` result means the
loop is still running (it has produced neither a key nor an error). -/
def fetchInfiniteAux (servers : List Server) (path : String) (initdata : Option String)
    (exec : CommandExecutor) : Nat → Option String × RunLog
  | 0 => (none, ⟨[], 0, 0⟩)
  | fuel + 1 =>
    match tryFetchFromServers servers path initdata exec with
    | (some key, tried) => (some key, ⟨tried, 0, 1⟩)
    | (none, tried) =>
      let rest := fetchInfiniteAux servers path initdata exec fuel
      (rest.1, ⟨tried ++ rest.2.calls, DELAY + rest.2.delaySecs, 1 + rest.2.attempts⟩)

/-- `fetch_luks_key` (src/cli/src/main.rs lines 273-329). The empty-list check
precedes everything else. The result is `none` only when the `Infinity` loop is
still running after `fuel` attempts. -/
def fetchLuksKey (servers : List Server) (path : String) (initdata : Option String)
    (numRetries : NumRetries) (exec : CommandExecutor) (fuel : Nat) :
    Option (Except String String) × RunLog :=
  if servers.isEmpty then (some (.error noServersMsg), ⟨[], 0, 0⟩)
  else
    match numRetries with
    | .Finite maxAttempts =>
      let r := fetchFiniteAux servers path initdata exec maxAttempts maxAttempts
      (some r.1, r.2)
    | .Infinity =>
      let r := fetchInfiniteAux servers path initdata exec fuel
      (r.1.map Except.ok, r.2)

/-- `fetch_and_prepare_jwk` (src/cli/src/main.rs lines 121-143): resolve a key
string, then decode it (base64, UTF-8, JSON) and build the JWK. The decoder
runs strictly after resolution and triggers no further executor activity. -/
def fetchAndPrepareJwk (servers : List Server) (path : String) (initdata : Option String)
    (numRetries : NumRetries) (exec : CommandExecutor) (fuel : Nat) :
    Option (Except String Jwk) × RunLog :=
  match fetchLuksKey servers path initdata numRetries exec fuel with
  | (none, log) => (none, log)
  | (some (.error e), log) => (some (.error e), log)
  | (some (.ok key), log) =>
    match decodeKeyMaterial key with
    | .error e => (some (.error e), log)
    | .ok kmat => (some (.ok (mkJwk kmat)), log)

/-- Modelled from the spec: `toml::to_string` of the `Initdata` wire document
(external crate): the `version` and `algorithm` scalars followed by the
string-to-string `data` table. -/
def initdataToml (m : List (String × String)) : String :=
  "version = \"0.1.0\"\nalgorithm = \"sha256\"\n\n[data]\n" ++
    String.join (m.map (fun p => p.1 ++ " = \"" ++ p.2 ++ "\"\n"))

/-- The init-data pipeline at the top of `encrypt` (src/cli/src/main.rs lines
148-163): when present, the raw config string is parsed as a flat
string-to-string JSON object (`parseMap` stands for `serde_json::from_str`)
and re-serialized as the TOML `Initdata` document handed downstream. -/
def encryptInitdataWire (parseMap : String → Except String (List (String × String))) :
    Option String → Except String (Option String)
  | none => .ok none
  | some s =>
    match parseMap s with
    | .error e => .error ("Failed to parse config initdata: " ++ e)
    | .ok m => .ok (some (initdataToml m))

/-- The retry policy `encrypt` resolves with (src/cli/src/main.rs lines 169-172). -/
def encryptPolicy (config : Config) : NumRetries :=
  effectiveRetries config.num_retries

/-- The retry policy `decrypt` resolves with (src/cli/src/main.rs lines 227-230). -/
def decryptPolicy (hdr : ClevisHeader) : NumRetries :=
  effectiveRetries hdr.num_retries

/-- The private header `encrypt` embeds (src/cli/src/main.rs lines 186-192):
pin `"trustee"`, the config's servers and path verbatim, the derived wire
init-data, and the config's optional retry policy verbatim. -/
def encryptHeader (config : Config) (wire : Option String) : ClevisHeader :=
  ⟨"trustee", config.servers, config.path, wire, config.num_retries⟩

/-- The arguments of one key resolution: servers, path, wire init-data and
effective retry policy. -/
structure ResolutionRequest where
  servers : List Server
  path : String
  initdata : Option String
  policy : NumRetries
deriving DecidableEq

/-- The resolution request `encrypt` issues (src/cli/src/main.rs lines 173-179). -/
def encryptRequest (config : Config) (wire : Option String) : ResolutionRequest :=
  ⟨config.servers, config.path, wire, encryptPolicy config⟩

/-- The resolution request `decrypt` reconstructs from the embedded header
(src/cli/src/main.rs lines 231-237). -/
def decryptRequest (hdr : ClevisHeader) : ResolutionRequest :=
  ⟨hdr.servers, hdr.path, hdr.initdata, decryptPolicy hdr⟩

/-- Modelled from the spec: the envelope produced by the external JWE
capability (`josekit::jwe::serialize_compact`): a header carrying the
algorithm identifiers and the clevis metadata block, and the payload sealed
under the content-encryption key. The key is recorded symbolically to model
the AEAD binding; it is not extractable from a real envelope. -/
structure Envelope where
  alg : String
  enc : String
  clevis : ClevisHeader
  body : List Nat
  sealKey : Jwk
deriving DecidableEq

/-- Modelled from the spec: sealing (AES-256-GCM under the direct key). -/
def sealJwe (jwk : Jwk) (hdr : ClevisHeader) (plaintext : List Nat) : Envelope :=
  ⟨"ECDH-ES", "A256GCM", hdr, plaintext, jwk⟩

/-- Modelled from the spec: authenticated opening
(`josekit::jwe::deserialize_compact`): succeeds with the original plaintext
exactly when the supplied key is the one the envelope was sealed under. -/
def openJwe (jwk : Jwk) (env : Envelope) : Except String (List Nat) :=
  if env.sealKey = jwk then .ok env.body else .error "Error decrypting JWE"

/-- `encrypt` (src/cli/src/main.rs lines 145-212), for an already-parsed
`Config` and the plaintext read from stdin: derive the wire init-data, resolve
and decode the key, build the embedded header, and seal. A `none` result means
an `Infinity` resolution is still running after `fuel` attempts. -/
def encrypt (config : Config) (plaintext : List Nat) (exec : CommandExecutor)
    (parseMap : String → Except String (List (String × String))) (fuel : Nat) :
    Option (Except String Envelope) × RunLog :=
  match encryptInitdataWire parseMap config.initdata with
  | .error e => (some (.error e), ⟨[], 0, 0⟩)
  | .ok wire =>
    match fetchAndPrepareJwk (encryptRequest config wire).servers
        (encryptRequest config wire).path (encryptRequest config wire).initdata
        (encryptRequest config wire).policy exec fuel with
    | (none, log) => (none, log)
    | (some (.error e), log) => (some (.error e), log)
    | (some (.ok jwk), log) =>
      (some (.ok (sealJwe jwk (encryptHeader config wire) plaintext)), log)

/-- The config-parse step of `encrypt` (src/cli/src/main.rs lines 146-147):
a malformed config is rejected before any resolution activity. -/
def encryptRun (configParse : Except String Config) (plaintext : List Nat)
    (exec : CommandExecutor)
    (parseMap : String → Except String (List (String × String))) (fuel : Nat) :
    Option (Except String Envelope) × RunLog :=
  match configParse with
  | .error e => (some (.error ("Failed to parse config JSON: " ++ e)), ⟨[], 0, 0⟩)
  | .ok config => encrypt config plaintext exec parseMap fuel

/-- `decrypt` (src/cli/src/main.rs lines 214-250), for an already-parsed
envelope: re-resolve from the embedded header, rebuild the JWK, and open. -/
def decrypt (env : Envelope) (exec : CommandExecutor) (fuel : Nat) :
    Option (Except String (List Nat)) × RunLog :=
  match fetchAndPrepareJwk (decryptRequest env.clevis).servers
      (decryptRequest env.clevis).path (decryptRequest env.clevis).initdata
      (decryptRequest env.clevis).policy exec fuel with
  | (none, log) => (none, log)
  | (some (.error e), log) => (some (.error e), log)
  | (some (.ok jwk), log) =>
    match openJwe jwk env with
    | .error e => (some (.error e), log)
    | .ok payload => (some (.ok payload), log)

/-! Helper lemmas about the engine. -/

/-- When every invocation fails, one pass tries every server in order. -/
lemma tryFetch_all_fail (path : String) (initdata : Option String) (exec : CommandExecutor)
    (hfail : ∀ u p c i, exec u p c i = none) :
    ∀ servers : List Server, tryFetchFromServers servers path initdata exec = (none, servers) := by
  intro servers
  induction servers with
  | nil => rfl
  | cons s rest ih => simp [tryFetchFromServers, hfail, ih]

/-- When every invocation fails, the finite arm runs all remaining attempts,
sleeping between consecutive attempts only, and ends with the exhaustion error. -/
lemma fetchFiniteAux_all_fail (servers : List Server) (path : String)
    (initdata : Option String) (exec : CommandExecutor) (maxAttempts : Nat)
    (hfail : ∀ u p c i, exec u p c i = none) :
    ∀ left, fetchFiniteAux servers path initdata exec maxAttempts left =
      (.error (allServersFailedMsg maxAttempts),
        ⟨(List.replicate left servers).flatten, (left - 1) * DELAY, left⟩) := by
  intro left
  induction left with
  | zero => simp [fetchFiniteAux]
  | succ n ih =>
    rw [fetchFiniteAux]
    rw [tryFetch_all_fail path initdata exec hfail servers]
    rw [ih]
    simp only [List.replicate_succ, List.flatten_cons, Prod.mk.injEq, RunLog.mk.injEq,
      Nat.succ_sub_one, true_and]
    constructor
    · cases n with
      | zero => simp
      | succ m => rw [if_neg (Nat.succ_ne_zero m), Nat.succ_sub_one, Nat.succ_mul]
                  exact Nat.add_comm _ _
    · exact Nat.add_comm 1 n

/-- When every invocation fails, the infinite arm performs every observed
attempt, sleeps after each, and never produces a result. -/
lemma fetchInfiniteAux_all_fail (servers : List Server) (path : String)
    (initdata : Option String) (exec : CommandExecutor)
    (hfail : ∀ u p c i, exec u p c i = none) :
    ∀ fuel, fetchInfiniteAux servers path initdata exec fuel =
      (none, ⟨(List.replicate fuel servers).flatten, fuel * DELAY, fuel⟩) := by
  intro fuel
  induction fuel with
  | zero => simp [fetchInfiniteAux]
  | succ n ih =>
    rw [fetchInfiniteAux]
    rw [tryFetch_all_fail path initdata exec hfail servers]
    rw [ih]
    simp only [List.replicate_succ, List.flatten_cons, Prod.mk.injEq, RunLog.mk.injEq,
      Nat.succ_mul, true_and]
    exact ⟨Nat.add_comm _ _, Nat.add_comm 1 n⟩

/-- A non-empty list is not `isEmpty`. -/
lemma isEmpty_false_of_ne_nil {α : Type} {l : List α} (h : l ≠ []) : l.isEmpty = false := by
  simp [List.isEmpty_eq_false, h]

/-- C2: Under `Finite(n)` with `n ≥ 1` and every server failing on every call,
resolution fails after exactly `n` attempts with the message citing `n`, having
slept the fixed 5-second delay exactly between consecutive attempts (`n - 1`
sleeps) and not after the final one. -/
theorem finite_all_fail_exhausts (servers : List Server) (path : String)
    (initdata : Option String) (exec : CommandExecutor) (n fuel : Nat)
    (hn : 1 ≤ n) (hne : servers ≠ [])
    (hfail : ∀ u p c i, exec u p c i = none) :
    fetchLuksKey servers path initdata (.Finite n) exec fuel =
      (some (.error (allServersFailedMsg n)),
        ⟨(List.replicate n servers).flatten, (n - 1) * DELAY, n⟩) ∧
    allServersFailedMsg n =
      "Failed to fetch the LUKS key from all URLs after " ++ toString n ++ " attempts" ∧
    DELAY = 5 := by
  refine ⟨?_, rfl, rfl⟩
  rw [fetchLuksKey, isEmpty_false_of_ne_nil hne]
  simp only [Bool.false_eq_true, if_false]
  rw [fetchFiniteAux_all_fail servers path initdata exec n hfail n]

/-- C2 witness: with one server, `Finite(3)` and an always-failing executor
(the repository's own `test_fetch_luks_key_error` scenario), resolution fails
with the message citing 3, after 3 attempts and 2 delays of 5 seconds. -/
theorem finite_all_fail_exhausts_witness :
    fetchLuksKey [⟨"http://server1.example.com", ""⟩] "/test/path" none (.Finite 3)
        (fun _ _ _ _ => none) 0 =
      (some (.error (allServersFailedMsg 3)),
        ⟨(List.replicate 3 [⟨"http://server1.example.com", ""⟩]).flatten, (3 - 1) * DELAY, 3⟩) ∧
    allServersFailedMsg 3 =
      "Failed to fetch the LUKS key from all URLs after " ++ toString 3 ++ " attempts" ∧
    DELAY = 5 :=
  finite_all_fail_exhausts [⟨"http://server1.example.com", ""⟩] "/test/path" none
    (fun _ _ _ _ => none) 3 0 (by decide) (by decide) (fun _ _ _ _ => rfl)

/-- C4: Under `Infinity` with every server failing on every call, resolution
never produces a result: after any number of observed attempts the engine has
produced neither a key nor an error, has begun exactly that many attempts, and
has slept the fixed delay after each one before beginning the next. -/
theorem infinite_all_fail_never_returns (servers : List Server) (path : String)
    (initdata : Option String) (exec : CommandExecutor)
    (hne : servers ≠ []) (hfail : ∀ u p c i, exec u p c i = none) :
    ∀ fuel, fetchLuksKey servers path initdata .Infinity exec fuel =
      (none, ⟨(List.replicate fuel servers).flatten, fuel * DELAY, fuel⟩) := by
  intro fuel
  rw [fetchLuksKey, isEmpty_false_of_ne_nil hne]
  simp only [Bool.false_eq_true, if_false]
  rw [fetchInfiniteAux_all_fail servers path initdata exec hfail fuel]
  rfl

/-- C4 witness: one always-failing server under `Infinity`; after 12 observed
attempts (a 60-second window at 5 seconds per sleep) the engine is still in
progress, with no error produced. -/
theorem infinite_all_fail_never_returns_witness :
    fetchLuksKey [⟨"http://server1.example.com", ""⟩] "/test/path" none .Infinity
        (fun _ _ _ _ => none) 12 =
      (none, ⟨(List.replicate 12 [⟨"http://server1.example.com", ""⟩]).flatten, 12 * DELAY, 12⟩) :=
  infinite_all_fail_never_returns [⟨"http://server1.example.com", ""⟩] "/test/path" none
    (fun _ _ _ _ => none) (by decide) (fun _ _ _ _ => rfl) 12

/-- C5: With an empty server list, resolution fails immediately with the
no-servers error for every path, init-data, retry policy and fuel, and the
executor is never invoked (the call log is empty). -/
theorem empty_servers_no_invocation :
    ∀ (path : String) (initdata : Option String) (pol : NumRetries)
      (exec : CommandExecutor) (fuel : Nat),
      fetchLuksKey [] path initdata pol exec fuel =
        (some (.error noServersMsg), ⟨[], 0, 0⟩) := by
  intro path initdata pol exec fuel
  rfl

/-- C10: `decrypt` never inspects the embedded pin: its behaviour on an
envelope is identical for every value of the pin field, so a pin other than
`"trustee"` is not rejected. -/
theorem decrypt_ignores_pin :
    ∀ (env : Envelope) (exec : CommandExecutor) (fuel : Nat) (p₁ p₂ : String),
      decrypt { env with clevis := { env.clevis with pin := p₁ } } exec fuel =
      decrypt { env with clevis := { env.clevis with pin := p₂ } } exec fuel := by
  intro env exec fuel p₁ p₂
  rfl

/-- If every server strictly before position `k` fails and the server at `k`
succeeds, one pass tries exactly the first `k + 1` servers in list order and
returns the key of server `k`. -/
lemma tryFetch_first_success (path : String) (initdata : Option String)
    (exec : CommandExecutor) :
    ∀ (servers : List Server) (k : Nat) (hk : k < servers.length) (key : String),
      (∀ s ∈ servers.take k, exec s.url path s.cert initdata = none) →
      exec (servers.get ⟨k, hk⟩).url path (servers.get ⟨k, hk⟩).cert initdata = some key →
      tryFetchFromServers servers path initdata exec = (some key, servers.take (k + 1)) := by
  intro servers
  induction servers with
  | nil => intro k hk; exact absurd hk (by simp)
  | cons s rest ih =>
    intro k hk key hbefore hsucc
    cases k with
    | zero =>
      simp only [List.get] at hsucc
      simp [tryFetchFromServers, hsucc]
    | succ k' =>
      have hs : exec s.url path s.cert initdata = none := by
        apply hbefore
        simp [List.take_succ_cons]
      have hk' : k' < rest.length := Nat.lt_of_succ_lt_succ hk
      have hrest := ih k' hk' key
        (fun t ht => hbefore t (by simp [List.take_succ_cons, ht]))
        hsucc
      simp [tryFetchFromServers, hs, hrest, List.take_succ_cons]

/-- C3: Within a single attempt the servers are tried exactly in list order:
when the server at position `k` (0-indexed) is the first to succeed, the pass
invokes exactly servers `0..k` and returns server `k`'s key; under any retry
policy admitting at least one attempt the whole resolution then returns that
key on attempt 1 with no inter-attempt delay. -/
theorem first_success_short_circuit (servers : List Server) (path : String)
    (initdata : Option String) (exec : CommandExecutor) (k : Nat)
    (hk : k < servers.length) (key : String)
    (hbefore : ∀ s ∈ servers.take k, exec s.url path s.cert initdata = none)
    (hsucc : exec (servers.get ⟨k, hk⟩).url path (servers.get ⟨k, hk⟩).cert initdata
      = some key) :
    tryFetchFromServers servers path initdata exec = (some key, servers.take (k + 1)) ∧
    (∀ m fuel, 1 ≤ m →
      fetchLuksKey servers path initdata (.Finite m) exec fuel =
        (some (.ok key), ⟨servers.take (k + 1), 0, 1⟩)) ∧
    (∀ fuel, 1 ≤ fuel →
      fetchLuksKey servers path initdata .Infinity exec fuel =
        (some (.ok key), ⟨servers.take (k + 1), 0, 1⟩)) := by
  have htry := tryFetch_first_success path initdata exec servers k hk key hbefore hsucc
  have hne : servers ≠ [] := by
    intro h
    rw [h] at hk
    exact absurd hk (by simp)
  refine ⟨htry, ?_, ?_⟩
  · intro m fuel hm
    rw [fetchLuksKey, isEmpty_false_of_ne_nil hne]
    simp only [Bool.false_eq_true, if_false]
    cases m with
    | zero => exact absurd hm (by simp)
    | succ m' =>
      rw [fetchFiniteAux, htry]
  · intro fuel hf
    rw [fetchLuksKey, isEmpty_false_of_ne_nil hne]
    simp only [Bool.false_eq_true, if_false]
    cases fuel with
    | zero => exact absurd hf (by simp)
    | succ f' =>
      rw [fetchInfiniteAux, htry]
      rfl

/-- C3 witness: three servers where the first fails and the second succeeds;
the pass tries exactly servers 1 and 2 in order, returns server 2's key, and
under `Finite(3)` the resolution returns it on attempt 1 with no delay. -/
theorem first_success_short_circuit_witness :
    tryFetchFromServers [⟨"http://a", ""⟩, ⟨"http://b", ""⟩, ⟨"http://c", ""⟩] "/p" none
        (fun u _ _ _ => if u = "http://b" then some "KEY-B" else none) =
      (some "KEY-B", [⟨"http://a", ""⟩, ⟨"http://b", ""⟩]) ∧
    fetchLuksKey [⟨"http://a", ""⟩, ⟨"http://b", ""⟩, ⟨"http://c", ""⟩] "/p" none (.Finite 3)
        (fun u _ _ _ => if u = "http://b" then some "KEY-B" else none) 0 =
      (some (.ok "KEY-B"), ⟨[⟨"http://a", ""⟩, ⟨"http://b", ""⟩], 0, 1⟩) := by
  have h := first_success_short_circuit
    [⟨"http://a", ""⟩, ⟨"http://b", ""⟩, ⟨"http://c", ""⟩] "/p" none
    (fun u _ _ _ => if u = "http://b" then some "KEY-B" else none) 1 (by decide) "KEY-B"
    (by decide) (by decide)
  exact ⟨h.1, h.2.1 3 0 (by decide)⟩

/-- The exhaustion message starts with the letter F for every attempt count. -/
lemma allServersFailedMsg_head (n : Nat) :
    (allServersFailedMsg n).data.head? = some 'F' := by
  rw [allServersFailedMsg, String.data_append, String.data_append]
  rfl

/-- Two strings with different leading characters differ. -/
lemma string_ne_of_head {s t : String} (h : s.data.head? ≠ t.data.head?) : s ≠ t := by
  intro he
  exact h (by rw [he])

/-- A decoder error is one of the three step messages. -/
lemma decodeKeyMaterial_error_cases {key : String} {e : String}
    (h : decodeKeyMaterial key = .error e) :
    e = b64ErrMsg ∨ e = utf8ErrMsg ∨ e = keyParseErrMsg := by
  rw [decodeKeyMaterial] at h
  split at h
  · exact Or.inl (Except.error.inj h).symm
  · split at h
    · exact Or.inr (Or.inl (Except.error.inj h).symm)
    · split at h
      · exact Or.inr (Or.inr (Except.error.inj h).symm)
      · exact absurd h (by simp)

/-- C8: the key material decoder runs strictly after a successful resolution
and applies base64 decode, UTF-8 decode and JSON parse in that order; a decode
failure is returned as-is with the resolution log unchanged (no further
executor invocation, no retry), its message is one of the three decoder step
messages, and it is distinct from both the retry-exhaustion message (for every
attempt count) and the no-servers message. -/
theorem decode_failure_terminal (servers : List Server) (path : String)
    (initdata : Option String) (pol : NumRetries) (exec : CommandExecutor)
    (fuel : Nat) (key : String) (log : RunLog) (e : String)
    (h1 : fetchLuksKey servers path initdata pol exec fuel = (some (.ok key), log))
    (h2 : decodeKeyMaterial key = .error e) :
    fetchAndPrepareJwk servers path initdata pol exec fuel = (some (.error e), log) ∧
    (e = b64ErrMsg ∨ e = utf8ErrMsg ∨ e = keyParseErrMsg) ∧
    (∀ n, e ≠ allServersFailedMsg n) ∧ e ≠ noServersMsg := by
  have hcases := decodeKeyMaterial_error_cases h2
  have hheadE : e.data.head? = some 'E' := by
    rcases hcases with rfl | rfl | rfl <;> rfl
  refine ⟨?_, hcases, ?_, ?_⟩
  · rw [fetchAndPrepareJwk, h1]
    simp only [h2]
  · intro n
    apply string_ne_of_head
    rw [hheadE, allServersFailedMsg_head n]
    simp
  · apply string_ne_of_head
    rw [hheadE]
    simp [noServersMsg]

/-- C8 witness: one server returning the non-base64 string `"!!!"` under
`Finite(1)`: resolution itself succeeds in one attempt, and the pipeline
returns the base64 decode error with the same log. -/
theorem decode_failure_terminal_witness :
    fetchAndPrepareJwk [⟨"http://a", ""⟩] "/p" none (.Finite 1)
        (fun _ _ _ _ => some "!!!") 0 =
      (some (.error b64ErrMsg), ⟨[⟨"http://a", ""⟩], 0, 1⟩) ∧
    (b64ErrMsg = b64ErrMsg ∨ b64ErrMsg = utf8ErrMsg ∨ b64ErrMsg = keyParseErrMsg) ∧
    (∀ n, b64ErrMsg ≠ allServersFailedMsg n) ∧ b64ErrMsg ≠ noServersMsg :=
  decode_failure_terminal [⟨"http://a", ""⟩] "/p" none (.Finite 1)
    (fun _ _ _ _ => some "!!!") 0 "!!!" ⟨[⟨"http://a", ""⟩], 0, 1⟩ b64ErrMsg rfl rfl

/-- Inversion of a successful `encrypt`: the wire init-data derivation
succeeded, the resolution-and-decode pipeline produced a JWK with the returned
log, and the envelope is the seal of the plaintext under that JWK with the
embedded header built from the config. -/
lemma encrypt_ok_inv {config : Config} {plaintext : List Nat} {exec : CommandExecutor}
    {parseMap : String → Except String (List (String × String))} {fuel : Nat}
    {env : Envelope} {log : RunLog}
    (h : encrypt config plaintext exec parseMap fuel = (some (.ok env), log)) :
    ∃ wire jwk,
      encryptInitdataWire parseMap config.initdata = .ok wire ∧
      fetchAndPrepareJwk (encryptRequest config wire).servers
        (encryptRequest config wire).path (encryptRequest config wire).initdata
        (encryptRequest config wire).policy exec fuel = (some (.ok jwk), log) ∧
      env = sealJwe jwk (encryptHeader config wire) plaintext := by
  rw [encrypt] at h
  split at h
  · simp at h
  · rename_i wire hwire
    split at h
    · simp at h
    · simp at h
    · rename_i jwk log' hfetch
      simp only [Prod.mk.injEq, Option.some.injEq, Except.ok.injEq] at h
      exact ⟨wire, jwk, hwire, by rw [h.2] at hfetch; exact hfetch, h.1.symm⟩

/-- C1: round trip. If `encrypt` succeeds (its resolution reached a server
returning a key that decodes to valid key material), then `decrypt` of the
produced envelope under the same executor re-resolves the same key and returns
the original plaintext bytes exactly, with the identical resolution log. -/
theorem seal_open_roundtrip (config : Config) (plaintext : List Nat)
    (exec : CommandExecutor)
    (parseMap : String → Except String (List (String × String))) (fuel : Nat)
    (env : Envelope) (log : RunLog)
    (h : encrypt config plaintext exec parseMap fuel = (some (.ok env), log)) :
    decrypt env exec fuel = (some (.ok plaintext), log) := by
  obtain ⟨wire, jwk, hwire, hfetch, henv⟩ := encrypt_ok_inv h
  subst henv
  rw [decrypt]
  have hreq : decryptRequest (sealJwe jwk (encryptHeader config wire) plaintext).clevis =
      encryptRequest config wire := rfl
  rw [hreq, hfetch]
  simp [openJwe, sealJwe]

/-- Witness configuration: one server, no init-data, default retry policy. -/
def wConfig : Config := ⟨[⟨"http://server1.example.com", ""⟩], "/test/path", none, none⟩

/-- Witness resolved key: base64 of a JSON object with key_type "oct" and key
"abc". -/
def wKeyB64 : String := "eyJrZXlfdHlwZSI6Im9jdCIsImtleSI6ImFiYyJ9"

/-- Witness executor: every invocation succeeds with the witness key. -/
def wExec : CommandExecutor := fun _ _ _ _ => some wKeyB64

/-- Witness init-data parser (never invoked: the witness config has none). -/
def wParse : String → Except String (List (String × String)) := fun _ => .error "unused"

/-- Witness plaintext bytes. -/
def wPlain : List Nat := [104, 105]

/-- Witness envelope: what `encrypt` produces on the witness inputs. -/
def wEnv : Envelope :=
  ⟨"ECDH-ES", "A256GCM", ⟨"trustee", [⟨"http://server1.example.com", ""⟩], "/test/path",
    none, none⟩, wPlain, ⟨"oct", "abc", ["encrypt", "decrypt"]⟩⟩

/-- Witness resolution log: one attempt, one call, no delay. -/
def wLog : RunLog := ⟨[⟨"http://server1.example.com", ""⟩], 0, 1⟩

/-- C1 witness: on the concrete witness inputs, `encrypt` succeeds and
`decrypt` of its envelope returns the plaintext. -/
theorem seal_open_roundtrip_witness :
    decrypt wEnv wExec 0 = (some (.ok wPlain), wLog) :=
  seal_open_roundtrip wConfig wPlain wExec wParse 0 wEnv wLog rfl

/-- C6: the embedded metadata block of every envelope `encrypt` produces
carries the pin `"trustee"`, the server list, resource path and optional retry
policy verbatim from the parsed config, and exactly the wire init-data that
encrypt's own resolution used; consequently the resolution request `decrypt`
reconstructs from the envelope equals the request `encrypt` issued, with the
same default applied to an absent retry policy at both ends. -/
theorem embedded_header_faithful (config : Config) (plaintext : List Nat)
    (exec : CommandExecutor)
    (parseMap : String → Except String (List (String × String))) (fuel : Nat)
    (env : Envelope) (log : RunLog)
    (h : encrypt config plaintext exec parseMap fuel = (some (.ok env), log)) :
    env.clevis.pin = "trustee" ∧
    env.clevis.servers = config.servers ∧
    env.clevis.path = config.path ∧
    env.clevis.num_retries = config.num_retries ∧
    encryptInitdataWire parseMap config.initdata = .ok env.clevis.initdata ∧
    decryptRequest env.clevis = encryptRequest config env.clevis.initdata ∧
    decryptPolicy env.clevis = encryptPolicy config := by
  obtain ⟨wire, jwk, hwire, _, henv⟩ := encrypt_ok_inv h
  subst henv
  exact ⟨rfl, rfl, rfl, rfl, hwire, rfl, rfl⟩

/-- C6 witness: the envelope produced on the witness inputs embeds the witness
config's fields verbatim and yields the identical resolution request at
decrypt time. -/
theorem embedded_header_faithful_witness :
    wEnv.clevis.pin = "trustee" ∧
    wEnv.clevis.servers = wConfig.servers ∧
    wEnv.clevis.path = wConfig.path ∧
    wEnv.clevis.num_retries = wConfig.num_retries ∧
    encryptInitdataWire wParse wConfig.initdata = .ok wEnv.clevis.initdata ∧
    decryptRequest wEnv.clevis = encryptRequest wConfig wEnv.clevis.initdata ∧
    decryptPolicy wEnv.clevis = encryptPolicy wConfig :=
  embedded_header_faithful wConfig wPlain wExec wParse 0 wEnv wLog rfl

/-- C7 counterexample: the positive integer 4294967296 (`u32::MAX + 1`) does
not yield `Finite(4294967296)`; the deserializer rejects it as too large, so
"a positive integer n >= 1 yields Finite(n)" fails at this input. -/
theorem num_retries_u32_overflow_rejected :
    numRetriesDeserialize (.int 4294967296) = .error "number too large: 4294967296" := rfl

/-- C7 (amended): a positive integer n with `1 ≤ n ≤ 4294967295` yields
`Finite(n)` and larger integers are rejected as too large; `"infinity"` yields
`Infinite`; an absent field defaults to `Finite(10)` and both encrypt and
decrypt apply that same default; zero, negative integers, any other string and
any other JSON shape are rejected at configuration-parse time — a config-parse
failure aborts encrypt before any resolver invocation. -/
theorem num_retries_parse_amended :
    (∀ n : Int, 1 ≤ n → n ≤ 4294967295 →
      numRetriesDeserialize (.int n) = .ok (.Finite n.toNat)) ∧
    (∀ n : Int, 4294967295 < n →
      numRetriesDeserialize (.int n) = .error ("number too large: " ++ toString n)) ∧
    numRetriesDeserialize (.str "infinity") = .ok .Infinity ∧
    (∀ z : Int, z ≤ 0 →
      numRetriesDeserialize (.int z) = .error ("number must be at least 1, got: " ++ toString z)) ∧
    (∀ s : String, s ≠ "infinity" →
      numRetriesDeserialize (.str s) = .error ("expected 'infinity', got: '" ++ s ++ "'")) ∧
    numRetriesDeserialize .other = .error "invalid type" ∧
    effectiveRetries none = .Finite DEFAULT_TRIES ∧ DEFAULT_TRIES = 10 ∧
    (∀ c : Config, c.num_retries = none → encryptPolicy c = .Finite 10) ∧
    (∀ h : ClevisHeader, h.num_retries = none → decryptPolicy h = .Finite 10) ∧
    (∀ (e : String) (plaintext : List Nat) (exec : CommandExecutor)
      (parseMap : String → Except String (List (String × String))) (fuel : Nat),
      encryptRun (.error e) plaintext exec parseMap fuel =
        (some (.error ("Failed to parse config JSON: " ++ e)), ⟨[], 0, 0⟩)) := by
  refine ⟨?_, ?_, rfl, ?_, ?_, rfl, rfl, rfl, ?_, ?_, ?_⟩
  · intro n h1 h2
    rw [numRetriesDeserialize]
    rw [if_neg (by omega), if_neg (by omega)]
  · intro n hbig
    rw [numRetriesDeserialize]
    rw [if_neg (by omega), if_pos hbig]
  · intro z hz
    rw [numRetriesDeserialize, if_pos hz]
  · intro s hs
    rw [numRetriesDeserialize, if_neg hs]
  · intro c hc
    rw [encryptPolicy, effectiveRetries, hc]
    rfl
  · intro h hh
    rw [decryptPolicy, effectiveRetries, hh]
    rfl
  · intro e plaintext exec parseMap fuel
    rfl

/-- C7 witness: concrete instances of the amended parse behaviour. -/
theorem num_retries_parse_amended_witness :
    numRetriesDeserialize (.int 5) = .ok (.Finite 5) ∧
    numRetriesDeserialize (.int 0) = .error ("number must be at least 1, got: " ++ toString (0 : Int)) ∧
    numRetriesDeserialize (.int (-3)) = .error ("number must be at least 1, got: " ++ toString (-3 : Int)) ∧
    numRetriesDeserialize (.str "ten") = .error ("expected 'infinity', got: '" ++ "ten" ++ "'") ∧
    encryptPolicy ⟨[], "", none, none⟩ = .Finite 10 :=
  ⟨num_retries_parse_amended.1 5 (by decide) (by decide),
   num_retries_parse_amended.2.2.2.1 0 (by decide),
   num_retries_parse_amended.2.2.2.1 (-3) (by decide),
   num_retries_parse_amended.2.2.2.2.1 "ten" (by decide),
   num_retries_parse_amended.2.2.2.2.2.2.2.2.1 ⟨[], "", none, none⟩ rfl⟩

/-- C9 counterexample: a server entry carrying only a `url` is not accepted by
the config parse; the serde-derived deserializer for `Server` rejects it with
a missing-field error because `cert` is a required `String` field. -/
theorem server_cert_required_counterexample :
    Server.deserializeFields [("url", .str "https://kbs.example.com")] =
      .error "missing field `cert`" := rfl

/-- C9 (amended): in the configuration data model a Server's certificate field
is required by the parse — an entry with both `url` and `cert` strings is
accepted, an entry without `cert` is rejected — and the certificate is used
only when non-empty: the production executor passes `--cert-file` to the
resolver agent exactly when `cert` is a non-empty string. -/
theorem server_cert_amended :
    (∀ u c : String,
      Server.deserializeFields [("url", .str u), ("cert", .str c)] = .ok ⟨u, c⟩) ∧
    (∀ u : String,
      Server.deserializeFields [("url", .str u)] = .error "missing field `cert`") ∧
    (∀ (url path : String) (initdata : Option String),
      buildCommandArgs url path "" initdata =
        ["--url", url, "get-resource", "--path", path] ++
          (match initdata with
           | some s => ["--initdata", s]
           | none => [])) ∧
    (∀ (url path cert : String) (initdata : Option String), cert ≠ "" →
      buildCommandArgs url path cert initdata =
        ["--cert-file", certPath url] ++
          ["--url", url, "get-resource", "--path", path] ++
          (match initdata with
           | some s => ["--initdata", s]
           | none => [])) := by
  refine ⟨fun u c => rfl, fun u => rfl, fun url path initdata => rfl, ?_⟩
  intro url path cert initdata hc
  unfold buildCommandArgs
  rw [if_neg (by simp [String.isEmpty_iff, hc])]

/-- C9 witness: a concrete server entry with both fields parses, and a
non-empty certificate puts `--cert-file` in the subprocess arguments. -/
theorem server_cert_amended_witness :
    Server.deserializeFields [("url", .str "https://kbs.example.com"), ("cert", .str "PEM")] =
      .ok ⟨"https://kbs.example.com", "PEM"⟩ ∧
    buildCommandArgs "https://kbs.example.com" "/default/key/1" "PEM" none =
      ["--cert-file", certPath "https://kbs.example.com"] ++
        ["--url", "https://kbs.example.com", "get-resource", "--path", "/default/key/1"] ++
        (match (none : Option String) with
         | some s => ["--initdata", s]
         | none => []) :=
  ⟨server_cert_amended.1 "https://kbs.example.com" "PEM",
   server_cert_amended.2.2.2 "https://kbs.example.com" "/default/key/1" "PEM" none
     (by decide)⟩

end Trustee
